import Mathlib

/-!
Verification of the transaction-submission pipeline in
src/src/send_and_confirm.rs (function send_and_confirm_batch).

The Rust function is embedded shallowly: each network call is driven by a
pre-supplied response (a script), and the pipeline additionally returns the
trace of network calls and fixed-delay sleeps it performed.  Machine-integer
arithmetic is modelled over Nat with explicit reduction modulo 2 ^ 32 where
the source casts to u32 (the cast truncates; the following u32 addition is
modelled as wrapping, matching release-profile semantics).  The retry loops
recurse structurally on the list of pending responses; a run that exhausts
its response list while a loop is still going is reported as a distinguished
fuel-out outcome, which makes non-termination hazards of the source visible
as fuel-out results for response lists of every length.
-/

namespace SendConfirm

/-- Constant RPC_RETRIES from the source (line 21). -/
def RPC_RETRIES : Nat := 0

/-- Constant SIMULATION_RETRIES from the source (line 22). -/
def SIMULATION_RETRIES : Nat := 4

/-- Constant GATEWAY_RETRIES from the source (line 23). -/
def GATEWAY_RETRIES : Nat := 4

/-- Constant CONFIRM_RETRIES from the source (line 24). -/
def CONFIRM_RETRIES : Nat := 4

/-- Constant CONFIRM_DELAY from the source (line 26), in milliseconds. -/
def CONFIRM_DELAY : Nat := 5000

/-- Constant GATEWAY_DELAY from the source (line 27), in milliseconds. -/
def GATEWAY_DELAY : Nat := 2000

/-- The u32 modulus. -/
def U32_MOD : Nat := 2 ^ 32

/-- The compute-unit limit placed in the rebuilt draft, embedding
the expression from source line 87: the u64 count is cast to u32
(truncation modulo 2 ^ 32) and then 1000 is added in wrapping u32
arithmetic. -/
def cuLimit (unitsConsumed : Nat) : Nat :=
  (unitsConsumed % U32_MOD + 1000) % U32_MOD

/-- Instructions: the two compute-budget instructions the optimizer can
produce, plus opaque caller-supplied instructions. -/
inductive Instruction where
  | setComputeUnitLimit (limit : Nat)
  | setComputeUnitPrice (price : Nat)
  | raw (programId : Nat) (data : List Nat)
deriving DecidableEq, Repr

/-- A transaction draft: Transaction::new_with_payer keeps the instruction
list and the fee payer (source lines 54 and 93). -/
structure Transaction where
  instructions : List Instruction
  payer : Nat
deriving DecidableEq, Repr

/-- Embedding of Transaction::new_with_payer. -/
def Transaction.new_with_payer (ixs : List Instruction) (payer : Nat) : Transaction :=
  ⟨ixs, payer⟩

/-- A signed transaction: tx.sign with the fetched blockhash and the signer
key (source line 111).  Byte-identity of resubmissions is equality of this
structure. -/
structure SignedTx where
  tx : Transaction
  blockhash : Nat
  signerKey : Nat
deriving DecidableEq, Repr

/-- Embedding of tx.sign over the draft, the blockhash, and the signer key. -/
def Transaction.sign (t : Transaction) (hash : Nat) (key : Nat) : SignedTx :=
  ⟨t, hash, key⟩

/-- One simulation response:  Ok carries sim_res.value.err and
sim_res.value.units_consumed; transportErr is an Err from the RPC call. -/
inductive SimOutcome where
  | ok (err : Option Nat) (unitsConsumed : Option Nat)
  | transportErr
deriving DecidableEq, Repr

/-- One submission response: a signature, or an error. -/
inductive SendOutcome where
  | ok (sig : Nat)
  | err
deriving DecidableEq, Repr

/-- Network calls and fixed-delay sleeps, recorded in execution order. -/
inductive Call where
  | getBalance
  | getBlockhash
  | simulate (tx : Transaction)
  | send (stx : SignedTx)
  | sleep (ms : Nat)
deriving DecidableEq, Repr

/-- The pipeline error taxonomy as produced by the source: a transport error
propagated by the question-mark operator, and the three custom errors. -/
inductive PipelineError where
  | transport
  | insufficientFunds
  | simulationFailed
  | submissionFailed
deriving DecidableEq, Repr

/-- Result of the dynamic-CU simulation loop: the rebuilt draft on the break,
the SimulationFailed return, or fuel-out (the response list was exhausted
while the loop was still running; the counter at that point is recorded). -/
inductive SimLoopResult where
  | rebuilt (tx : Transaction)
  | failed
  | fuelOut (attempts : Nat)
deriving DecidableEq, Repr

/-- The rebuilt draft on simulation success (source lines 86 to 93):
compute-unit-limit instruction, then compute-unit-price instruction, then
the original instructions. -/
def rebuildTx (ixs : List Instruction) (payer fee unitsConsumed : Nat) : Transaction :=
  ⟨Instruction.setComputeUnitLimit (cuLimit unitsConsumed) ::
    Instruction.setComputeUnitPrice fee :: ixs, payer⟩

/-- Embedding of the labelled simulate loop (source lines 57 to 108),
driven by the list of pending simulation responses.  The draft being
simulated never changes inside the loop (it is only replaced on the
breaking success), so every simulate call in the trace carries `tx`.
Note the Ok-with-no-error-and-no-units branch: the source falls through
without touching sim_attempts and without breaking. -/
def simLoop (ixs : List Instruction) (payer fee : Nat) (tx : Transaction) :
    Nat → List SimOutcome → SimLoopResult × List Call
  | attempts, [] => (SimLoopResult.fuelOut attempts, [])
  | attempts, SimOutcome.ok (some _) _ :: rest =>
      if attempts + 1 > SIMULATION_RETRIES then
        (SimLoopResult.failed, [Call.simulate tx])
      else
        let r := simLoop ixs payer fee tx (attempts + 1) rest
        (r.1, Call.simulate tx :: r.2)
  | _, SimOutcome.ok none (some c) :: _ =>
      (SimLoopResult.rebuilt (rebuildTx ixs payer fee c), [Call.simulate tx])
  | attempts, SimOutcome.ok none none :: rest =>
      let r := simLoop ixs payer fee tx attempts rest
      (r.1, Call.simulate tx :: r.2)
  | attempts, SimOutcome.transportErr :: rest =>
      if attempts + 1 > SIMULATION_RETRIES then
        (SimLoopResult.failed, [Call.simulate tx])
      else
        let r := simLoop ixs payer fee tx (attempts + 1) rest
        (r.1, Call.simulate tx :: r.2)

/-- Result of the submission loop: the recorded signature, the
Max-retries-exceeded return, or fuel-out. -/
inductive SendLoopResult where
  | sent (sig : Nat)
  | failed
  | fuelOut
deriving DecidableEq, Repr

/-- Embedding of the submission loop (source lines 120 to 145), driven by
the list of pending submission responses.  The same signed transaction is
sent on every attempt.  On success the source pushes the signature and
breaks on both sides of the skip_confirm test (the confirmation branch is a
stub: it only prints); on error it increments the counter, fails once the
counter exceeds GATEWAY_RETRIES, and otherwise sleeps GATEWAY_DELAY before
the next attempt. -/
def sendLoop (stx : SignedTx) (skipConfirm : Bool) :
    Nat → List SendOutcome → SendLoopResult × List Call
  | _, [] => (SendLoopResult.fuelOut, [])
  | _, SendOutcome.ok sig :: _ =>
      if skipConfirm then (SendLoopResult.sent sig, [Call.send stx])
      else (SendLoopResult.sent sig, [Call.send stx])
  | attempts, SendOutcome.err :: rest =>
      if attempts + 1 > GATEWAY_RETRIES then
        (SendLoopResult.failed, [Call.send stx])
      else
        let r := sendLoop stx skipConfirm (attempts + 1) rest
        (r.1, Call.send stx :: Call.sleep GATEWAY_DELAY :: r.2)

/-- A fallible RPC response: the value, or a transport-layer error
(propagated by the source's question-mark operator). -/
inductive RpcResult (α : Type) where
  | ok (a : α)
  | rpcErr
deriving DecidableEq, Repr

/-- The scripted network responses for one batch element: the balance
query, the blockhash query (hash and slot), then the simulation responses
and the submission responses consumed one per attempt. -/
structure ElemScript where
  balance : RpcResult Nat
  blockhash : RpcResult (Nat × Nat)
  sims : List SimOutcome
  sends : List SendOutcome
deriving DecidableEq, Repr

/-- The configuration the pipeline reads from the Miner: the signer's
public key and the configured priority fee. -/
structure Miner where
  signerKey : Nat
  priorityFee : Nat
deriving DecidableEq, Repr

/-- Outcome of one batch element. -/
inductive ElemResult where
  | ok (sig : Nat)
  | err (e : PipelineError)
  | stuck
deriving DecidableEq, Repr

/-- The submission phase of one element, wrapping sendLoop: a sent
signature is recorded as the element's success, exhausted retries become
the submissionFailed error. -/
def submitPhase (stx : SignedTx) (skipConfirm : Bool) (sends : List SendOutcome) :
    ElemResult × List Call :=
  match sendLoop stx skipConfirm 0 sends with
  | (SendLoopResult.sent sig, tr) => (ElemResult.ok sig, tr)
  | (SendLoopResult.failed, tr) => (ElemResult.err PipelineError.submissionFailed, tr)
  | (SendLoopResult.fuelOut, tr) => (ElemResult.stuck, tr)

/-- Embedding of the body of the per-element for loop of
send_and_confirm_batch (source lines 41 to 146): balance precondition,
blockhash fetch, draft construction, optional dynamic-CU simulation loop,
signing with the fetched blockhash, and the submission loop. -/
def processElem (m : Miner) (ixs : List Instruction) (dynamicCus skipConfirm : Bool)
    (s : ElemScript) : ElemResult × List Call :=
  match s.balance with
  | RpcResult.rpcErr => (ElemResult.err PipelineError.transport, [Call.getBalance])
  | RpcResult.ok balance =>
    if balance ≤ 0 then
      (ElemResult.err PipelineError.insufficientFunds, [Call.getBalance])
    else
      match s.blockhash with
      | RpcResult.rpcErr =>
          (ElemResult.err PipelineError.transport, [Call.getBalance, Call.getBlockhash])
      | RpcResult.ok (hash, _slot) =>
        let tx0 := Transaction.new_with_payer ixs m.signerKey
        if dynamicCus then
          match simLoop ixs m.signerKey m.priorityFee tx0 0 s.sims with
          | (SimLoopResult.failed, tr) =>
              (ElemResult.err PipelineError.simulationFailed,
                Call.getBalance :: Call.getBlockhash :: tr)
          | (SimLoopResult.fuelOut _, tr) =>
              (ElemResult.stuck, Call.getBalance :: Call.getBlockhash :: tr)
          | (SimLoopResult.rebuilt t, tr) =>
              let p := submitPhase (Transaction.sign t hash m.signerKey) skipConfirm s.sends
              (p.1, Call.getBalance :: Call.getBlockhash :: (tr ++ p.2))
        else
          let p := submitPhase (Transaction.sign tx0 hash m.signerKey) skipConfirm s.sends
          (p.1, Call.getBalance :: Call.getBlockhash :: p.2)

/-- Result of the whole batch call: the ordered signature list, or the
first element's terminal error (accumulated signatures are dropped), or
stuck when a response list ran out mid-loop. -/
inductive BatchResult where
  | ok (sigs : List Nat)
  | err (e : PipelineError)
  | stuck
deriving DecidableEq, Repr

/-- Embedding of send_and_confirm_batch: the elements are processed
sequentially in input order; the first terminal error aborts the whole
batch and discards the signatures already collected. -/
def send_and_confirm_batch (m : Miner) (dynamicCus skipConfirm : Bool) :
    List (List Instruction) → List ElemScript → BatchResult × List Call
  | [], _ => (BatchResult.ok [], [])
  | _ :: _, [] => (BatchResult.stuck, [])
  | ixs :: gs, s :: ss =>
    match processElem m ixs dynamicCus skipConfirm s with
    | (ElemResult.ok sig, tr) =>
      match send_and_confirm_batch m dynamicCus skipConfirm gs ss with
      | (BatchResult.ok sigs, tr2) => (BatchResult.ok (sig :: sigs), tr ++ tr2)
      | (BatchResult.err e, tr2) => (BatchResult.err e, tr ++ tr2)
      | (BatchResult.stuck, tr2) => (BatchResult.stuck, tr ++ tr2)
    | (ElemResult.err e, tr) => (BatchResult.err e, tr)
    | (ElemResult.stuck, tr) => (BatchResult.stuck, tr)

/-- Predicate for a simulation response the source counts as a retry: a
success carrying a reported on-chain error, or a transport error. -/
def isSimFailure : SimOutcome → Bool
  | SimOutcome.ok (some _) _ => true
  | SimOutcome.transportErr => true
  | _ => false

/-- The trace of one counted-and-continued submission failure, repeated k
times: each failed attempt is followed by the fixed GATEWAY_DELAY sleep. -/
def failTrace (stx : SignedTx) : Nat → List Call
  | 0 => []
  | k + 1 => Call.send stx :: Call.sleep GATEWAY_DELAY :: failTrace stx k

/-- The signature an all-success element run returns (used to state batch
ordering). -/
def elemSigOf (m : Miner) (dynamicCus skipConfirm : Bool)
    (p : List Instruction × ElemScript) : Nat :=
  match processElem m p.1 dynamicCus skipConfirm p.2 with
  | (ElemResult.ok sig, _) => sig
  | _ => 0

/-- Confirmation status progression (spec data model, section 3). -/
inductive ConfStatus where
  | unseen
  | processed
  | confirmed
  | finalized
deriving DecidableEq, Repr

/-- Numeric rank of the ordered progression unseen, processed, confirmed,
finalized. -/
def ConfStatus.rank : ConfStatus → Nat
  | ConfStatus.unseen => 0
  | ConfStatus.processed => 1
  | ConfStatus.confirmed => 2
  | ConfStatus.finalized => 3

/-- One confirmation poll response: the observed status and the optional
on-chain execution error attached to it. -/
structure PollResp where
  status : ConfStatus
  execErr : Option Nat
deriving DecidableEq, Repr

/-- Terminal outcomes of the confirmation phase. -/
inductive ConfirmResult where
  | success
  | onChainExecutionError
  | confirmationTimeout
  | fuelOut
deriving DecidableEq, Repr

/-- A concrete element script that succeeds: positive balance, a
blockhash, and a first submission attempt that returns signature 7. -/
def goodScript : ElemScript :=
  ⟨RpcResult.ok 1, RpcResult.ok (0, 0), [], [SendOutcome.ok 7]⟩

/-- A concrete element script that fails the balance precondition. -/
def badScript : ElemScript :=
  ⟨RpcResult.ok 0, RpcResult.ok (0, 0), [], [SendOutcome.ok 7]⟩

/-- The blockhash a script supplies (0 when the blockhash query fails);
used to name the blockhash a signed transaction carries. -/
def scriptHash (s : ElemScript) : Nat :=
  match s.blockhash with
  | RpcResult.ok (bh, _) => bh
  | RpcResult.rpcErr => 0

/-- Modelled from the spec: the Confirmer of section 4.4 is stubbed in the
source (the Ok branch of the submission loop only prints, source lines 128
to 131), so this loop is built from the spec text: poll the signature's
status; an attached execution error is the terminal
onChainExecutionError; a status at or above the configured commitment
threshold is success; a below-threshold poll increments the attempt
counter (sleeping the fixed CONFIRM_DELAY between polls, not recorded
here) and exhausting the fixed retry ceiling CONFIRM_RETRIES yields
confirmationTimeout.  The counter-against-ceiling pattern mirrors the
source's other two retry loops. -/
def confirmLoop (threshold : ConfStatus) : Nat → List PollResp → ConfirmResult
  | _, [] => ConfirmResult.fuelOut
  | attempts, r :: rest =>
    match r.execErr with
    | some _ => ConfirmResult.onChainExecutionError
    | none =>
      if ConfStatus.rank threshold ≤ ConfStatus.rank r.status then
        ConfirmResult.success
      else if attempts + 1 > CONFIRM_RETRIES then
        ConfirmResult.confirmationTimeout
      else
        confirmLoop threshold (attempts + 1) rest

/-! Helper lemmas. -/

theorem sendLoop_skip_eq (stx : SignedTx) (os : List SendOutcome) (a : Nat) (b b' : Bool) :
    sendLoop stx b a os = sendLoop stx b' a os := by
  induction os generalizing a with
  | nil => rfl
  | cons o rest ih =>
    cases o with
    | ok sig => simp [sendLoop]
    | err =>
      simp only [sendLoop]
      split
      · rfl
      · simp [ih]

theorem submitPhase_skip_eq (stx : SignedTx) (sends : List SendOutcome) (b b' : Bool) :
    submitPhase stx b sends = submitPhase stx b' sends := by
  simp only [submitPhase, sendLoop_skip_eq stx sends 0 b b']

theorem processElem_skip_eq (m : Miner) (ixs : List Instruction) (dyn : Bool)
    (s : ElemScript) (b b' : Bool) :
    processElem m ixs dyn b s = processElem m ixs dyn b' s := by
  cases hbal : s.balance with
  | rpcErr => simp [processElem, hbal]
  | ok bal =>
    by_cases h0 : bal ≤ 0
    · simp [processElem, hbal, h0]
    · cases hbh : s.blockhash with
      | rpcErr => simp [processElem, hbal, h0, hbh]
      | ok p =>
        obtain ⟨hash, slot⟩ := p
        cases dyn with
        | false => simp [processElem, hbal, h0, hbh, submitPhase_skip_eq _ _ b b']
        | true =>
          simp only [processElem, hbal, h0, hbh, if_neg h0, if_true]
          rcases hsim : simLoop ixs m.signerKey m.priorityFee
              (Transaction.new_with_payer ixs m.signerKey) 0 s.sims with ⟨res, tr⟩
          cases res <;> simp [hsim, submitPhase_skip_eq _ _ b b']

/-- C9: for every batch, every dynamic-CU flag, and every fixed response
script, send_and_confirm_batch returns the identical result and performs
the identical network calls whether skip_confirm is true or false: the
confirmation branch of the source only prints and performs no network
call, so the flag cannot change the returned value or which calls fail
the batch. -/
theorem c9_skip_confirm_irrelevant (m : Miner) (dynamicCus : Bool)
    (gs : List (List Instruction)) (ss : List ElemScript) :
    send_and_confirm_batch m dynamicCus true gs ss
      = send_and_confirm_batch m dynamicCus false gs ss := by
  induction gs generalizing ss with
  | nil => rfl
  | cons g rest ih =>
    cases ss with
    | nil => rfl
    | cons s ss' =>
      simp only [send_and_confirm_batch]
      rw [processElem_skip_eq m g dynamicCus s true false, ih ss']

/-- C2 (code behavior at the failing input): a simulation attempt that
succeeds but reports neither an on-chain error nor a consumed-unit count
leaves the attempt counter untouched and does not break, so for every
number n of consecutive such responses the simulation loop is still
running with the counter at its starting value — the loop never reaches
the rebuilt exit nor the SimulationFailed exit, contradicting the claimed
ceiling+1 bound on attempts. -/
theorem c2_anomaly_never_counts (ixs : List Instruction) (payer fee : Nat)
    (tx : Transaction) (attempts n : Nat) :
    simLoop ixs payer fee tx attempts (List.replicate n (SimOutcome.ok none none))
      = (SimLoopResult.fuelOut attempts, List.replicate n (Call.simulate tx)) := by
  induction n with
  | zero => simp [simLoop]
  | succ k ih => simp [List.replicate_succ, simLoop, ih]

/-- C10: the compute-unit limit placed in the rebuilt draft is computed in
32-bit arithmetic from the 64-bit reported count: it equals
(c mod 2 ^ 32 + 1000) mod 2 ^ 32, hence equals c + 1000 exactly when
c < 2 ^ 32 - 1000, and differs from c + 1000 for every larger reported
count. -/
theorem c10_u32_wrap (ixs : List Instruction) (payer fee c : Nat) :
    (rebuildTx ixs payer fee c).instructions.head?
        = some (Instruction.setComputeUnitLimit ((c % 2 ^ 32 + 1000) % 2 ^ 32))
    ∧ (c < 2 ^ 32 - 1000 → cuLimit c = c + 1000)
    ∧ (2 ^ 32 - 1000 ≤ c → cuLimit c ≠ c + 1000) := by
  have e : (2 : Nat) ^ 32 = 4294967296 := by norm_num
  refine ⟨by simp [rebuildTx, cuLimit, U32_MOD], ?_, ?_⟩
  · intro h
    simp only [cuLimit, U32_MOD]
    rw [e] at h ⊢
    omega
  · intro h
    simp only [cuLimit, U32_MOD]
    rw [e] at h ⊢
    omega

/-- Witness for C10 at concrete counts 50000 and 4294967000. -/
theorem c10_u32_wrap_witness :
    cuLimit 50000 = 51000 ∧ cuLimit 4294967000 ≠ 4294967000 + 1000 :=
  ⟨(c10_u32_wrap [] 0 0 50000).2.1 (by norm_num),
   (c10_u32_wrap [] 0 0 4294967000).2.2 (by norm_num)⟩

/-- C8: a batch element whose fee-payer balance query returns a
non-positive balance fails immediately with InsufficientFunds, and the
element's network trace is exactly the single balance query: no balance
retry, no blockhash fetch, no simulation, no submission. -/
theorem c8_insufficient_funds (m : Miner) (ixs : List Instruction)
    (dynamicCus skipConfirm : Bool) (s : ElemScript) (b : Nat)
    (hbal : s.balance = RpcResult.ok b) (hb : b ≤ 0) :
    processElem m ixs dynamicCus skipConfirm s
      = (ElemResult.err PipelineError.insufficientFunds, [Call.getBalance]) := by
  simp [processElem, hbal, hb]

/-- Witness for C8 on a concrete script with balance 0. -/
theorem c8_insufficient_funds_witness :
    processElem ⟨1, 2⟩ [] true false badScript
      = (ElemResult.err PipelineError.insufficientFunds, [Call.getBalance]) :=
  c8_insufficient_funds ⟨1, 2⟩ [] true false badScript 0 rfl (by decide)

theorem simLoop_fst_rebuilt (ixs : List Instruction) (payer fee : Nat)
    (tx : Transaction) :
    ∀ (outcomes : List SimOutcome) (a : Nat) (t : Transaction),
      (simLoop ixs payer fee tx a outcomes).1 = SimLoopResult.rebuilt t
      → ∃ c, SimOutcome.ok none (some c) ∈ outcomes ∧ t = rebuildTx ixs payer fee c := by
  intro outcomes
  induction outcomes with
  | nil => intro a t h; simp [simLoop] at h
  | cons o rest ih =>
    intro a t h
    match o with
    | SimOutcome.ok (some e') u =>
      simp only [simLoop] at h
      split at h
      · simp at h
      · simp only at h
        obtain ⟨c, hc, ht⟩ := ih (a + 1) t h
        exact ⟨c, by simp [hc], ht⟩
    | SimOutcome.ok none (some c) =>
      simp only [simLoop] at h
      exact ⟨c, by simp, by simp at h; exact h.symm⟩
    | SimOutcome.ok none none =>
      simp only [simLoop] at h
      obtain ⟨c, hc, ht⟩ := ih a t h
      exact ⟨c, by simp [hc], ht⟩
    | SimOutcome.transportErr =>
      simp only [simLoop] at h
      split at h
      · simp at h
      · simp only at h
        obtain ⟨c, hc, ht⟩ := ih (a + 1) t h
        exact ⟨c, by simp [hc], ht⟩

/-- C1 counterexample: for the reported count 4294966296 = 2 ^ 32 - 1000
the rebuilt compute-unit limit is 0, not consumed + 1000: the claimed
equality of the limit with c + 1000 fails for this reported c. -/
theorem c1_counterexample :
    simLoop [] 0 0 (Transaction.new_with_payer [] 0) 0
        [SimOutcome.ok none (some 4294966296)]
      = (SimLoopResult.rebuilt
          ⟨[Instruction.setComputeUnitLimit 0, Instruction.setComputeUnitPrice 0], 0⟩,
         [Call.simulate (Transaction.new_with_payer [] 0)])
    ∧ (0 : Nat) ≠ 4294966296 + 1000 := by
  constructor
  · decide
  · decide

/-- C1 (amended): on a simulation success with reported count c, the loop
immediately rebuilds the draft as the compute-unit-limit instruction with
limit (c mod 2 ^ 32 + 1000) mod 2 ^ 32 — which equals c + 1000 whenever
c + 1000 < 2 ^ 32 — followed by the compute-unit-price instruction with
the configured priority fee, followed by every original instruction
unmodified and in order; and every rebuilt exit of the loop has exactly
this shape (the only success exit). -/
theorem c1_rebuild (ixs : List Instruction) (payer fee : Nat) (tx : Transaction)
    (attempts c : Nat) (rest : List SimOutcome) :
    simLoop ixs payer fee tx attempts (SimOutcome.ok none (some c) :: rest)
      = (SimLoopResult.rebuilt (rebuildTx ixs payer fee c), [Call.simulate tx])
    ∧ (rebuildTx ixs payer fee c).instructions
        = Instruction.setComputeUnitLimit (cuLimit c)
          :: Instruction.setComputeUnitPrice fee :: ixs
    ∧ (c + 1000 < 2 ^ 32 → cuLimit c = c + 1000)
    ∧ (∀ (outcomes : List SimOutcome) (a : Nat) (t : Transaction),
        (simLoop ixs payer fee tx a outcomes).1 = SimLoopResult.rebuilt t
        → ∃ c', SimOutcome.ok none (some c') ∈ outcomes
            ∧ t = rebuildTx ixs payer fee c') := by
  have e : (2 : Nat) ^ 32 = 4294967296 := by norm_num
  refine ⟨by simp [simLoop], rfl, ?_, simLoop_fst_rebuilt ixs payer fee tx⟩
  intro h
  simp only [cuLimit, U32_MOD]
  rw [e] at h ⊢
  omega

/-- Witness for C1 at the concrete reported count 50000: the rebuilt
limit is 51000 and the original instruction follows the two budget
instructions. -/
theorem c1_rebuild_witness :
    simLoop [Instruction.raw 9 []] 5 7
        (Transaction.new_with_payer [Instruction.raw 9 []] 5) 0
        [SimOutcome.ok none (some 50000)]
      = (SimLoopResult.rebuilt (rebuildTx [Instruction.raw 9 []] 5 7 50000),
         [Call.simulate (Transaction.new_with_payer [Instruction.raw 9 []] 5)])
    ∧ cuLimit 50000 = 51000 :=
  ⟨(c1_rebuild [Instruction.raw 9 []] 5 7
      (Transaction.new_with_payer [Instruction.raw 9 []] 5) 0 50000 []).1,
   (c1_rebuild [Instruction.raw 9 []] 5 7
      (Transaction.new_with_payer [Instruction.raw 9 []] 5) 0 50000 []).2.2.1
     (by norm_num)⟩

theorem sendLoop_err_steps (stx : SignedTx) (skip : Bool) :
    ∀ (k a : Nat) (rest : List SendOutcome), a + k ≤ GATEWAY_RETRIES →
      sendLoop stx skip a (List.replicate k SendOutcome.err ++ rest)
        = ((sendLoop stx skip (a + k) rest).1,
           failTrace stx k ++ (sendLoop stx skip (a + k) rest).2) := by
  intro k
  induction k with
  | zero => intro a rest _; simp [failTrace]
  | succ k' ih =>
    intro a rest h
    have hne : ¬ (a + 1 > GATEWAY_RETRIES) := by
      simp only [GATEWAY_RETRIES] at h ⊢; omega
    simp only [List.replicate_succ, List.cons_append, sendLoop, if_neg hne, List.append_eq]
    rw [ih (a + 1) rest (by simp only [GATEWAY_RETRIES] at h ⊢; omega)]
    have hadd : a + 1 + k' = a + (k' + 1) := by omega
    rw [hadd]
    simp [failTrace]

theorem sendLoop_err_exhaust (stx : SignedTx) (skip : Bool) :
    ∀ (k a : Nat) (rest : List SendOutcome),
      a ≤ GATEWAY_RETRIES → a + k = GATEWAY_RETRIES + 1 →
      sendLoop stx skip a (List.replicate k SendOutcome.err ++ rest)
        = (SendLoopResult.failed, failTrace stx (k - 1) ++ [Call.send stx]) := by
  intro k
  induction k with
  | zero => intro a rest h1 h2; simp only [GATEWAY_RETRIES] at h1 h2; omega
  | succ k' ih =>
    intro a rest h1 h2
    by_cases ha : a + 1 > GATEWAY_RETRIES
    · have hk0 : k' = 0 := by simp only [GATEWAY_RETRIES] at *; omega
      subst hk0
      simp [List.replicate_succ, sendLoop, if_pos ha, failTrace]
    · have hk' : 1 ≤ k' := by simp only [GATEWAY_RETRIES] at *; omega
      simp only [List.replicate_succ, List.cons_append, sendLoop, if_neg ha, List.append_eq]
      rw [ih (a + 1) rest (by simp only [GATEWAY_RETRIES] at *; omega)
        (by simp only [GATEWAY_RETRIES] at *; omega)]
      obtain ⟨k'', rfl⟩ : ∃ k'', k' = k'' + 1 := ⟨k' - 1, by omega⟩
      simp [failTrace]

/-- C3: for a signed transaction, k consecutive submission failures with
k < ceiling + 1 followed by one success record the returned signature with
no further resubmission (the remaining responses are never consumed), with
the fixed GATEWAY_DELAY sleep after each counted failure; exactly
ceiling + 1 consecutive failures return the SubmissionFailed error with a
sleep between consecutive failed attempts and none after the last. -/
theorem c3_submit_retry (stx : SignedTx) (skipConfirm : Bool) (k : Nat)
    (hk : k < GATEWAY_RETRIES + 1) (sig : Nat) (rest rest' : List SendOutcome) :
    submitPhase stx skipConfirm
        (List.replicate k SendOutcome.err ++ SendOutcome.ok sig :: rest)
      = (ElemResult.ok sig, failTrace stx k ++ [Call.send stx])
    ∧ submitPhase stx skipConfirm
        (List.replicate (GATEWAY_RETRIES + 1) SendOutcome.err ++ rest')
      = (ElemResult.err PipelineError.submissionFailed,
         failTrace stx GATEWAY_RETRIES ++ [Call.send stx]) := by
  constructor
  · have h1 := sendLoop_err_steps stx skipConfirm k 0 (SendOutcome.ok sig :: rest)
      (by simp only [GATEWAY_RETRIES] at *; omega)
    have h2 : sendLoop stx skipConfirm (0 + k) (SendOutcome.ok sig :: rest)
        = (SendLoopResult.sent sig, [Call.send stx]) := by
      simp [sendLoop]
    rw [h2] at h1
    simp only [submitPhase, h1]
  · have h1 := sendLoop_err_exhaust stx skipConfirm (GATEWAY_RETRIES + 1) 0 rest'
      (by simp [GATEWAY_RETRIES]) (by omega)
    simp only [Nat.add_sub_cancel] at h1
    simp only [submitPhase, h1]

/-- Witness for C3: two failures then success records signature 7; five
consecutive failures return SubmissionFailed. -/
theorem c3_submit_retry_witness :
    submitPhase ⟨⟨[], 0⟩, 0, 0⟩ true
        (List.replicate 2 SendOutcome.err ++ SendOutcome.ok 7 :: [])
      = (ElemResult.ok 7, failTrace ⟨⟨[], 0⟩, 0, 0⟩ 2 ++ [Call.send ⟨⟨[], 0⟩, 0, 0⟩])
    ∧ submitPhase ⟨⟨[], 0⟩, 0, 0⟩ true
        (List.replicate (GATEWAY_RETRIES + 1) SendOutcome.err ++ [])
      = (ElemResult.err PipelineError.submissionFailed,
         failTrace ⟨⟨[], 0⟩, 0, 0⟩ GATEWAY_RETRIES ++ [Call.send ⟨⟨[], 0⟩, 0, 0⟩]) :=
  ⟨(c3_submit_retry ⟨⟨[], 0⟩, 0, 0⟩ true 2 (by decide) 7 [] []).1,
   (c3_submit_retry ⟨⟨[], 0⟩, 0, 0⟩ true 2 (by decide) 7 [] []).2⟩

theorem simLoop_fail_steps (ixs : List Instruction) (payer fee : Nat) (tx : Transaction) :
    ∀ (fs : List SimOutcome), (∀ o ∈ fs, isSimFailure o = true) →
    ∀ (a : Nat) (rest : List SimOutcome), a + fs.length ≤ SIMULATION_RETRIES →
      simLoop ixs payer fee tx a (fs ++ rest)
        = ((simLoop ixs payer fee tx (a + fs.length) rest).1,
           List.replicate fs.length (Call.simulate tx)
             ++ (simLoop ixs payer fee tx (a + fs.length) rest).2) := by
  intro fs
  induction fs with
  | nil => intro _ a rest _; simp
  | cons o fs' ih =>
    intro hall a rest h
    have ho : isSimFailure o = true := hall o (by simp)
    have hfs' : ∀ x ∈ fs', isSimFailure x = true := fun x hx => hall x (by simp [hx])
    simp only [List.length_cons] at h ⊢
    have hne : ¬ (a + 1 > SIMULATION_RETRIES) := by
      simp only [SIMULATION_RETRIES] at h ⊢; omega
    have hrec : a + 1 + fs'.length ≤ SIMULATION_RETRIES := by
      simp only [SIMULATION_RETRIES] at h ⊢; omega
    have hadd : a + 1 + fs'.length = a + (fs'.length + 1) := by omega
    cases o with
    | ok e u =>
      cases e with
      | none => simp [isSimFailure] at ho
      | some e' =>
        simp only [List.cons_append, simLoop, if_neg hne, List.append_eq]
        rw [ih hfs' (a + 1) rest hrec, hadd]
        simp [List.replicate_succ]
    | transportErr =>
      simp only [List.cons_append, simLoop, if_neg hne, List.append_eq]
      rw [ih hfs' (a + 1) rest hrec, hadd]
      simp [List.replicate_succ]

theorem simLoop_fail_exhaust (ixs : List Instruction) (payer fee : Nat) (tx : Transaction) :
    ∀ (fs : List SimOutcome), (∀ o ∈ fs, isSimFailure o = true) →
    ∀ (a : Nat) (rest : List SimOutcome),
      a ≤ SIMULATION_RETRIES → a + fs.length = SIMULATION_RETRIES + 1 →
      simLoop ixs payer fee tx a (fs ++ rest)
        = (SimLoopResult.failed, List.replicate fs.length (Call.simulate tx)) := by
  intro fs
  induction fs with
  | nil =>
    intro _ a rest h1 h2
    simp only [SIMULATION_RETRIES, List.length_nil] at h1 h2
    omega
  | cons o fs' ih =>
    intro hall a rest h1 h2
    have ho : isSimFailure o = true := hall o (by simp)
    have hfs' : ∀ x ∈ fs', isSimFailure x = true := fun x hx => hall x (by simp [hx])
    simp only [List.length_cons] at h2 ⊢
    by_cases ha : a + 1 > SIMULATION_RETRIES
    · have hk0 : fs' = [] := by
        have hl : fs'.length = 0 := by simp only [SIMULATION_RETRIES] at *; omega
        exact List.eq_nil_of_length_eq_zero hl
      subst hk0
      cases o with
      | ok e u =>
        cases e with
        | none => simp [isSimFailure] at ho
        | some e' => simp [simLoop, if_pos ha, List.replicate_succ]
      | transportErr => simp [simLoop, if_pos ha, List.replicate_succ]
    · have hr1 : a + 1 ≤ SIMULATION_RETRIES := by
        simp only [SIMULATION_RETRIES] at *; omega
      have hr2 : a + 1 + fs'.length = SIMULATION_RETRIES + 1 := by
        simp only [SIMULATION_RETRIES] at *; omega
      cases o with
      | ok e u =>
        cases e with
        | none => simp [isSimFailure] at ho
        | some e' =>
          simp only [List.cons_append, simLoop, if_neg ha, List.append_eq]
          rw [ih hfs' (a + 1) rest hr1 hr2]
          simp [List.replicate_succ]
      | transportErr =>
        simp only [List.cons_append, simLoop, if_neg ha, List.append_eq]
        rw [ih hfs' (a + 1) rest hr1 hr2]
        simp [List.replicate_succ]

/-- C4: N (at most ceiling) simulation attempts that end in a reported
on-chain error or a transport error, followed by one success with a
reported count, rebuild the draft and the element proceeds to signing
and submission of the rebuilt draft; ceiling + 1 consecutive such failing
attempts fail with SimulationFailed; every retry re-simulates the same
unmodified draft (each simulate call in the trace carries the original
draft). -/
theorem c4_sim_retry (m : Miner) (skipConfirm : Bool) (ixs : List Instruction)
    (fs fs5 : List SimOutcome)
    (hfs : ∀ o ∈ fs, isSimFailure o = true)
    (hlen : fs.length ≤ SIMULATION_RETRIES)
    (hfs5 : ∀ o ∈ fs5, isSimFailure o = true)
    (hlen5 : fs5.length = SIMULATION_RETRIES + 1)
    (c : Nat) (rest rest' : List SimOutcome) (bal hash slot sig : Nat)
    (hbal : 0 < bal) :
    simLoop ixs m.signerKey m.priorityFee (Transaction.new_with_payer ixs m.signerKey) 0
        (fs ++ SimOutcome.ok none (some c) :: rest)
      = (SimLoopResult.rebuilt (rebuildTx ixs m.signerKey m.priorityFee c),
         List.replicate (fs.length + 1)
           (Call.simulate (Transaction.new_with_payer ixs m.signerKey)))
    ∧ simLoop ixs m.signerKey m.priorityFee (Transaction.new_with_payer ixs m.signerKey) 0
        (fs5 ++ rest')
      = (SimLoopResult.failed,
         List.replicate (SIMULATION_RETRIES + 1)
           (Call.simulate (Transaction.new_with_payer ixs m.signerKey)))
    ∧ processElem m ixs true skipConfirm
        ⟨RpcResult.ok bal, RpcResult.ok (hash, slot),
          fs ++ [SimOutcome.ok none (some c)], [SendOutcome.ok sig]⟩
      = (ElemResult.ok sig,
         Call.getBalance :: Call.getBlockhash ::
           (List.replicate (fs.length + 1)
               (Call.simulate (Transaction.new_with_payer ixs m.signerKey))
             ++ [Call.send (Transaction.sign (rebuildTx ixs m.signerKey m.priorityFee c)
                   hash m.signerKey)])) := by
  have key : ∀ rest2 : List SimOutcome,
      simLoop ixs m.signerKey m.priorityFee (Transaction.new_with_payer ixs m.signerKey) 0
          (fs ++ SimOutcome.ok none (some c) :: rest2)
        = (SimLoopResult.rebuilt (rebuildTx ixs m.signerKey m.priorityFee c),
           List.replicate (fs.length + 1)
             (Call.simulate (Transaction.new_with_payer ixs m.signerKey))) := by
    intro rest2
    have hs := simLoop_fail_steps ixs m.signerKey m.priorityFee
      (Transaction.new_with_payer ixs m.signerKey) fs hfs 0
      (SimOutcome.ok none (some c) :: rest2) (by omega)
    have hh : simLoop ixs m.signerKey m.priorityFee
        (Transaction.new_with_payer ixs m.signerKey) (0 + fs.length)
        (SimOutcome.ok none (some c) :: rest2)
        = (SimLoopResult.rebuilt (rebuildTx ixs m.signerKey m.priorityFee c),
           [Call.simulate (Transaction.new_with_payer ixs m.signerKey)]) := by
      simp [simLoop]
    rw [hh] at hs
    rw [hs]
    simp [List.replicate_succ']
  have hfail := simLoop_fail_exhaust ixs m.signerKey m.priorityFee
    (Transaction.new_with_payer ixs m.signerKey) fs5 hfs5 0 rest'
    (by simp [SIMULATION_RETRIES]) (by omega)
  refine ⟨key rest, by rw [hfail, hlen5], ?_⟩
  have h0 : ¬ (bal ≤ 0) := by omega
  have hsub : submitPhase
      (Transaction.sign (rebuildTx ixs m.signerKey m.priorityFee c) hash m.signerKey)
      skipConfirm [SendOutcome.ok sig]
      = (ElemResult.ok sig,
         [Call.send (Transaction.sign (rebuildTx ixs m.signerKey m.priorityFee c)
             hash m.signerKey)]) := by
    simp [submitPhase, sendLoop]
  simp [processElem, h0, key [], hsub]

/-- Witness for C4: two mixed failures (a transport error and a reported
on-chain error) then success with count 10 rebuild the draft; five
consecutive failures yield SimulationFailed. -/
theorem c4_sim_retry_witness :
    simLoop [] 1 2 (Transaction.new_with_payer [] 1) 0
        ([SimOutcome.transportErr, SimOutcome.ok (some 3) none]
          ++ SimOutcome.ok none (some 10) :: [])
      = (SimLoopResult.rebuilt (rebuildTx [] 1 2 10),
         List.replicate 3 (Call.simulate (Transaction.new_with_payer [] 1)))
    ∧ simLoop [] 1 2 (Transaction.new_with_payer [] 1) 0
        ([SimOutcome.transportErr, SimOutcome.ok (some 3) none, SimOutcome.transportErr,
          SimOutcome.ok (some 4) (some 9), SimOutcome.transportErr] ++ [])
      = (SimLoopResult.failed,
         List.replicate (SIMULATION_RETRIES + 1)
           (Call.simulate (Transaction.new_with_payer [] 1)))
    ∧ processElem ⟨1, 2⟩ [] true false
        ⟨RpcResult.ok 5, RpcResult.ok (8, 3),
          [SimOutcome.transportErr, SimOutcome.ok (some 3) none]
            ++ [SimOutcome.ok none (some 10)], [SendOutcome.ok 7]⟩
      = (ElemResult.ok 7,
         Call.getBalance :: Call.getBlockhash ::
           (List.replicate 3 (Call.simulate (Transaction.new_with_payer [] 1))
             ++ [Call.send (Transaction.sign (rebuildTx [] 1 2 10) 8 1)])) :=
  c4_sim_retry ⟨1, 2⟩ false []
    [SimOutcome.transportErr, SimOutcome.ok (some 3) none]
    [SimOutcome.transportErr, SimOutcome.ok (some 3) none, SimOutcome.transportErr,
      SimOutcome.ok (some 4) (some 9), SimOutcome.transportErr]
    (by decide) (by decide) (by decide) (by decide)
    10 [] [] 5 8 3 7 (by decide)

theorem sendLoop_trace_calls (stx : SignedTx) (skip : Bool) :
    ∀ (os : List SendOutcome) (a : Nat) (c : Call), c ∈ (sendLoop stx skip a os).2 →
      c = Call.send stx ∨ c = Call.sleep GATEWAY_DELAY := by
  intro os
  induction os with
  | nil => intro a c h; simp [sendLoop] at h
  | cons o rest ih =>
    intro a c h
    cases o with
    | ok sig =>
      simp [sendLoop] at h
      exact Or.inl h
    | err =>
      simp only [sendLoop] at h
      by_cases hcond : a + 1 > GATEWAY_RETRIES
      · rw [if_pos hcond] at h
        simp at h
        exact Or.inl h
      · rw [if_neg hcond] at h
        simp at h
        rcases h with h | h | h
        · exact Or.inl h
        · exact Or.inr h
        · exact ih (a + 1) c h

theorem simLoop_trace_calls (ixs : List Instruction) (payer fee : Nat) (tx : Transaction) :
    ∀ (os : List SimOutcome) (a : Nat) (c : Call), c ∈ (simLoop ixs payer fee tx a os).2 →
      c = Call.simulate tx := by
  intro os
  induction os with
  | nil => intro a c h; simp [simLoop] at h
  | cons o rest ih =>
    intro a c h
    cases o with
    | ok e u =>
      cases e with
      | some e' =>
        simp only [simLoop] at h
        by_cases hcond : a + 1 > SIMULATION_RETRIES
        · rw [if_pos hcond] at h
          simp at h
          exact h
        · rw [if_neg hcond] at h
          simp at h
          rcases h with h | h
          · exact h
          · exact ih (a + 1) c h
      | none =>
        cases u with
        | some cu =>
          simp [simLoop] at h
          exact h
        | none =>
          simp only [simLoop] at h
          simp at h
          rcases h with h | h
          · exact h
          · exact ih a c h
    | transportErr =>
      simp only [simLoop] at h
      by_cases hcond : a + 1 > SIMULATION_RETRIES
      · rw [if_pos hcond] at h
        simp at h
        exact h
      · rw [if_neg hcond] at h
        simp at h
        rcases h with h | h
        · exact h
        · exact ih (a + 1) c h

theorem submitPhase_snd (stx : SignedTx) (skip : Bool) (sends : List SendOutcome) :
    (submitPhase stx skip sends).2 = (sendLoop stx skip 0 sends).2 := by
  simp only [submitPhase]
  rcases h : sendLoop stx skip 0 sends with ⟨res, tr⟩
  cases res <;> simp

/-- C5: in every element run, the trace splits into a phase with no
submission at all followed by the submission phase, in which every
submission carries one and the same signed transaction — a transaction
signed with the element's fetched blockhash and the fee payer's key —
so every resubmission is byte-identical to the first attempt and the
draft is never re-signed or rebuilt inside the submission retry loop. -/
theorem c5_sign_once (m : Miner) (ixs : List Instruction) (dyn skip : Bool)
    (s : ElemScript) :
    ∃ (stx : SignedTx) (pre sub : List Call),
      (processElem m ixs dyn skip s).2 = pre ++ sub
      ∧ (∀ x : SignedTx, Call.send x ∉ pre)
      ∧ (∀ cl ∈ sub, cl = Call.send stx ∨ cl = Call.sleep GATEWAY_DELAY)
      ∧ stx.signerKey = m.signerKey
      ∧ (∃ t : Transaction, stx = Transaction.sign t stx.blockhash m.signerKey)
      ∧ (∀ bh sl, s.blockhash = RpcResult.ok (bh, sl) → stx.blockhash = bh) := by
  cases hbal : s.balance with
  | rpcErr =>
    refine ⟨Transaction.sign (Transaction.new_with_payer ixs m.signerKey)
        (scriptHash s) m.signerKey, [Call.getBalance], [], ?_, ?_, by simp, rfl,
      ⟨Transaction.new_with_payer ixs m.signerKey, rfl⟩, ?_⟩
    · simp [processElem, hbal]
    · intro x hx
      simp at hx
    · intro bh sl heq
      simp [Transaction.sign, scriptHash, heq]
  | ok bal =>
    by_cases h0 : bal ≤ 0
    · refine ⟨Transaction.sign (Transaction.new_with_payer ixs m.signerKey)
          (scriptHash s) m.signerKey, [Call.getBalance], [], ?_, ?_, by simp, rfl,
        ⟨Transaction.new_with_payer ixs m.signerKey, rfl⟩, ?_⟩
      · simp [processElem, hbal, h0]
      · intro x hx
        simp at hx
      · intro bh sl heq
        simp [Transaction.sign, scriptHash, heq]
    · cases hbh : s.blockhash with
      | rpcErr =>
        refine ⟨Transaction.sign (Transaction.new_with_payer ixs m.signerKey)
            (scriptHash s) m.signerKey, [Call.getBalance, Call.getBlockhash], [],
          ?_, ?_, by simp, rfl,
          ⟨Transaction.new_with_payer ixs m.signerKey, rfl⟩, ?_⟩
        · simp [processElem, hbal, h0, hbh]
        · intro x hx
          simp at hx
        · intro bh sl heq
          simp at heq
      | ok p =>
        obtain ⟨hash, slot⟩ := p
        cases dyn with
        | false =>
          refine ⟨Transaction.sign (Transaction.new_with_payer ixs m.signerKey)
              hash m.signerKey, [Call.getBalance, Call.getBlockhash],
            (sendLoop (Transaction.sign (Transaction.new_with_payer ixs m.signerKey)
              hash m.signerKey) skip 0 s.sends).2, ?_, ?_, ?_, rfl,
            ⟨Transaction.new_with_payer ixs m.signerKey, rfl⟩, ?_⟩
          · simp [processElem, hbal, h0, hbh, submitPhase_snd]
          · intro x hx
            simp at hx
          · intro cl hcl
            exact sendLoop_trace_calls _ skip s.sends 0 cl hcl
          · intro bh sl heq
            simp at heq
            simp [Transaction.sign, heq.1]
        | true =>
          rcases hsim : simLoop ixs m.signerKey m.priorityFee
              (Transaction.new_with_payer ixs m.signerKey) 0 s.sims with ⟨res, simTr⟩
          have hsimtr : ∀ c ∈ simTr, c = Call.simulate (Transaction.new_with_payer ixs m.signerKey) := by
            intro c hc
            exact simLoop_trace_calls ixs m.signerKey m.priorityFee _ s.sims 0 c
              (by rw [hsim]; exact hc)
          have hnosend : ∀ x : SignedTx,
              Call.send x ∉ Call.getBalance :: Call.getBlockhash :: simTr := by
            intro x hx
            rcases List.mem_cons.mp hx with h1 | hx2
            · simp at h1
            · rcases List.mem_cons.mp hx2 with h2 | hx3
              · simp at h2
              · have := hsimtr _ hx3
                simp at this
          cases res with
          | failed =>
            refine ⟨Transaction.sign (Transaction.new_with_payer ixs m.signerKey)
                hash m.signerKey, Call.getBalance :: Call.getBlockhash :: simTr, [],
              ?_, hnosend, by simp, rfl,
              ⟨Transaction.new_with_payer ixs m.signerKey, rfl⟩, ?_⟩
            · simp [processElem, hbal, h0, hbh, hsim]
            · intro bh sl heq
              simp at heq
              simp [Transaction.sign, heq.1]
          | fuelOut a =>
            refine ⟨Transaction.sign (Transaction.new_with_payer ixs m.signerKey)
                hash m.signerKey, Call.getBalance :: Call.getBlockhash :: simTr, [],
              ?_, hnosend, by simp, rfl,
              ⟨Transaction.new_with_payer ixs m.signerKey, rfl⟩, ?_⟩
            · simp [processElem, hbal, h0, hbh, hsim]
            · intro bh sl heq
              simp at heq
              simp [Transaction.sign, heq.1]
          | rebuilt t =>
            refine ⟨Transaction.sign t hash m.signerKey,
              Call.getBalance :: Call.getBlockhash :: simTr,
              (sendLoop (Transaction.sign t hash m.signerKey) skip 0 s.sends).2,
              ?_, hnosend, ?_, rfl, ⟨t, rfl⟩, ?_⟩
            · simp [processElem, hbal, h0, hbh, hsim, submitPhase_snd]
            · intro cl hcl
              exact sendLoop_trace_calls _ skip s.sends 0 cl hcl
            · intro bh sl heq
              simp at heq
              simp [Transaction.sign, heq.1]

/-- Witness for C5 on a concrete run: a dynamic-CU element with one
simulation success and a failed first submission followed by a success. -/
theorem c5_sign_once_witness :
    ∃ (stx : SignedTx) (pre sub : List Call),
      (processElem ⟨1, 2⟩ [] true false
          ⟨RpcResult.ok 5, RpcResult.ok (9, 3),
            [SimOutcome.ok none (some 10)], [SendOutcome.err, SendOutcome.ok 7]⟩).2
        = pre ++ sub
      ∧ (∀ x : SignedTx, Call.send x ∉ pre)
      ∧ (∀ cl ∈ sub, cl = Call.send stx ∨ cl = Call.sleep GATEWAY_DELAY)
      ∧ stx.signerKey = (Miner.mk 1 2).signerKey
      ∧ (∃ t : Transaction, stx = Transaction.sign t stx.blockhash (Miner.mk 1 2).signerKey)
      ∧ (∀ bh sl, (ElemScript.mk (RpcResult.ok 5) (RpcResult.ok (9, 3))
            [SimOutcome.ok none (some 10)] [SendOutcome.err, SendOutcome.ok 7]).blockhash
          = RpcResult.ok (bh, sl) → stx.blockhash = bh) :=
  c5_sign_once ⟨1, 2⟩ [] true false
    ⟨RpcResult.ok 5, RpcResult.ok (9, 3),
      [SimOutcome.ok none (some 10)], [SendOutcome.err, SendOutcome.ok 7]⟩

theorem confirmLoop_below_timeout (th : ConfStatus) :
    ∀ (rs : List PollResp) (n : Nat),
      (∀ r ∈ rs, r.execErr = none ∧ ConfStatus.rank r.status < ConfStatus.rank th) →
      n ≤ CONFIRM_RETRIES → CONFIRM_RETRIES + 1 ≤ n + rs.length →
      confirmLoop th n rs = ConfirmResult.confirmationTimeout := by
  intro rs
  induction rs with
  | nil =>
    intro n _ h1 h2
    simp only [CONFIRM_RETRIES, List.length_nil] at h1 h2
    omega
  | cons r rest ih =>
    intro n hall h1 h2
    obtain ⟨he, hlt⟩ := hall r (by simp)
    have hrest : ∀ x ∈ rest,
        x.execErr = none ∧ ConfStatus.rank x.status < ConfStatus.rank th :=
      fun x hx => hall x (by simp [hx])
    have hnot : ¬ (ConfStatus.rank th ≤ ConfStatus.rank r.status) := by omega
    by_cases hn : n + 1 > CONFIRM_RETRIES
    · simp [confirmLoop, he, hnot, hn]
    · simp only [confirmLoop, he, if_neg hnot, if_neg hn]
      exact ih (n + 1) hrest (by simp only [CONFIRM_RETRIES] at *; omega)
        (by simp only [CONFIRM_RETRIES, List.length_cons] at *; omega)

/-- C6 (Confirmer, modelled from the spec since the source stubs it):
the status sequence unseen, processed, confirmed reaches the configured
confirmed threshold within the ceiling and returns success; any poll at or
above the threshold with no attached error is success; any poll with an
attached execution error is the terminal onChainExecutionError; and a
response sequence that never reaches the threshold within the fixed retry
ceiling returns confirmationTimeout. -/
theorem c6_confirmer (threshold : ConfStatus) (rs : List PollResp)
    (hbelow : ∀ r ∈ rs,
      r.execErr = none ∧ ConfStatus.rank r.status < ConfStatus.rank threshold)
    (hlenr : CONFIRM_RETRIES + 1 ≤ rs.length) :
    confirmLoop ConfStatus.confirmed 0
        [⟨ConfStatus.unseen, none⟩, ⟨ConfStatus.processed, none⟩,
         ⟨ConfStatus.confirmed, none⟩]
      = ConfirmResult.success
    ∧ (∀ (th : ConfStatus) (n : Nat) (r : PollResp) (rest : List PollResp),
        r.execErr = none → ConfStatus.rank th ≤ ConfStatus.rank r.status →
        confirmLoop th n (r :: rest) = ConfirmResult.success)
    ∧ (∀ (th : ConfStatus) (n e : Nat) (st : ConfStatus) (rest : List PollResp),
        confirmLoop th n (⟨st, some e⟩ :: rest) = ConfirmResult.onChainExecutionError)
    ∧ confirmLoop threshold 0 rs = ConfirmResult.confirmationTimeout := by
  refine ⟨by decide, ?_, ?_, ?_⟩
  · intro th n r rest he hr
    simp [confirmLoop, he, hr]
  · intro th n e st rest
    simp [confirmLoop]
  · exact confirmLoop_below_timeout threshold rs 0 hbelow (Nat.zero_le _) (by omega)

/-- Witness for C6: five consecutive unseen polls below the confirmed
threshold yield confirmationTimeout; the concrete rising sequence yields
success. -/
theorem c6_confirmer_witness :
    confirmLoop ConfStatus.confirmed 0
        [⟨ConfStatus.unseen, none⟩, ⟨ConfStatus.processed, none⟩,
         ⟨ConfStatus.confirmed, none⟩]
      = ConfirmResult.success
    ∧ (∀ (th : ConfStatus) (n : Nat) (r : PollResp) (rest : List PollResp),
        r.execErr = none → ConfStatus.rank th ≤ ConfStatus.rank r.status →
        confirmLoop th n (r :: rest) = ConfirmResult.success)
    ∧ (∀ (th : ConfStatus) (n e : Nat) (st : ConfStatus) (rest : List PollResp),
        confirmLoop th n (⟨st, some e⟩ :: rest) = ConfirmResult.onChainExecutionError)
    ∧ confirmLoop ConfStatus.confirmed 0
        (List.replicate 5 ⟨ConfStatus.unseen, none⟩)
      = ConfirmResult.confirmationTimeout :=
  c6_confirmer ConfStatus.confirmed (List.replicate 5 ⟨ConfStatus.unseen, none⟩)
    (by decide) (by decide)

theorem batch_all_ok (m : Miner) (dyn skip : Bool) :
    ∀ (gs : List (List Instruction)) (ss : List ElemScript),
      (∀ p ∈ gs.zip ss, ∃ sig tr,
        processElem m p.1 dyn skip p.2 = (ElemResult.ok sig, tr)) →
      gs.length = ss.length →
      ∃ tr, send_and_confirm_batch m dyn skip gs ss
        = (BatchResult.ok ((gs.zip ss).map (elemSigOf m dyn skip)), tr) := by
  intro gs
  induction gs with
  | nil =>
    intro ss _ _
    exact ⟨[], by simp [send_and_confirm_batch]⟩
  | cons g gs' ih =>
    intro ss hok hlen
    cases ss with
    | nil => simp at hlen
    | cons s ss' =>
      obtain ⟨sig, tr0, hp⟩ := hok (g, s) (by simp)
      have hok' : ∀ p ∈ gs'.zip ss', ∃ sig tr,
          processElem m p.1 dyn skip p.2 = (ElemResult.ok sig, tr) :=
        fun p hp' => hok p (by simp [hp'])
      obtain ⟨tr', hrec⟩ := ih ss' hok' (by simp at hlen; exact hlen)
      refine ⟨tr0 ++ tr', ?_⟩
      have hsig : elemSigOf m dyn skip (g, s) = sig := by simp [elemSigOf, hp]
      simp only [send_and_confirm_batch, hp, hrec]
      simp [List.zip_cons_cons, hsig]

theorem batch_abort_run (m : Miner) (dyn skip : Bool) :
    ∀ (gs1 : List (List Instruction)) (ss1 : List ElemScript),
      gs1.length = ss1.length →
      (∀ p ∈ gs1.zip ss1, ∃ sig tr,
        processElem m p.1 dyn skip p.2 = (ElemResult.ok sig, tr)) →
      ∀ (g : List Instruction) (s : ElemScript) (gs2 : List (List Instruction))
        (ss2 : List ElemScript) (e : PipelineError) (tr : List Call),
        processElem m g dyn skip s = (ElemResult.err e, tr) →
        (send_and_confirm_batch m dyn skip (gs1 ++ g :: gs2) (ss1 ++ s :: ss2)).1
          = BatchResult.err e := by
  intro gs1
  induction gs1 with
  | nil =>
    intro ss1 hlen _ g s gs2 ss2 e tr hp
    have hnil : ss1 = [] := List.eq_nil_of_length_eq_zero (by simp at hlen; omega)
    subst hnil
    simp [send_and_confirm_batch, hp]
  | cons g1 gs1' ih =>
    intro ss1 hlen hok g s gs2 ss2 e tr hp
    cases ss1 with
    | nil => simp at hlen
    | cons s1 ss1' =>
      obtain ⟨sig, tr0, hp1⟩ := hok (g1, s1) (by simp)
      have hok' : ∀ p ∈ gs1'.zip ss1', ∃ sig tr,
          processElem m p.1 dyn skip p.2 = (ElemResult.ok sig, tr) :=
        fun p hp' => hok p (by simp [hp'])
      have hrec := ih ss1' (by simp at hlen; exact hlen) hok' g s gs2 ss2 e tr hp
      simp only [List.cons_append, send_and_confirm_batch, hp1]
      rcases hb : send_and_confirm_batch m dyn skip (gs1' ++ g :: gs2) (ss1' ++ s :: ss2)
        with ⟨br, btr⟩
      rw [hb] at hrec
      simp at hrec
      subst hrec
      simp

/-- C7 (amended): a batch whose elements all succeed returns exactly one
signature per instruction group, in input order; and if a batch is an
all-succeeding run followed by an element failing terminally with error e,
the batch call returns the error e of the failing element (so no signature
is produced for any later element and the already-collected signatures of
prior elements are lost); the returned error value itself does not carry
the index of the failing element. -/
theorem c7_batch_order_abort (m : Miner) (dyn skip : Bool)
    (gs : List (List Instruction)) (ss : List ElemScript)
    (hlen : gs.length = ss.length)
    (hok : ∀ p ∈ gs.zip ss, ∃ sig tr,
      processElem m p.1 dyn skip p.2 = (ElemResult.ok sig, tr)) :
    (∃ tr, send_and_confirm_batch m dyn skip gs ss
        = (BatchResult.ok ((gs.zip ss).map (elemSigOf m dyn skip)), tr))
    ∧ ((gs.zip ss).map (elemSigOf m dyn skip)).length = gs.length
    ∧ (∀ (g : List Instruction) (s : ElemScript) (gs2 : List (List Instruction))
        (ss2 : List ElemScript) (e : PipelineError) (tr : List Call),
        processElem m g dyn skip s = (ElemResult.err e, tr) →
        (send_and_confirm_batch m dyn skip (gs ++ g :: gs2) (ss ++ s :: ss2)).1
          = BatchResult.err e) := by
  refine ⟨batch_all_ok m dyn skip gs ss hok hlen, ?_,
    batch_abort_run m dyn skip gs ss hlen hok⟩
  simp [hlen]

/-- C7 counterexample to the claim as stated: the returned error does not
identify the failing element — a batch whose first element fails and a
batch whose second element fails return the very same error value. -/
theorem c7_counterexample :
    (processElem ⟨1, 2⟩ [] false false badScript).1
        = ElemResult.err PipelineError.insufficientFunds
    ∧ (processElem ⟨1, 2⟩ [] false false goodScript).1 = ElemResult.ok 7
    ∧ (send_and_confirm_batch ⟨1, 2⟩ false false [[], []] [badScript, goodScript]).1
        = BatchResult.err PipelineError.insufficientFunds
    ∧ (send_and_confirm_batch ⟨1, 2⟩ false false [[], []] [goodScript, badScript]).1
        = BatchResult.err PipelineError.insufficientFunds := by
  exact ⟨by decide, by decide, by decide, by decide⟩

/-- Witness for C7 on a concrete all-succeeding batch of two elements. -/
theorem c7_batch_order_abort_witness :
    (∃ tr, send_and_confirm_batch ⟨1, 2⟩ false false [[], []] [goodScript, goodScript]
        = (BatchResult.ok ((([[], []] : List (List Instruction)).zip
            [goodScript, goodScript]).map (elemSigOf ⟨1, 2⟩ false false)), tr))
    ∧ ((([[], []] : List (List Instruction)).zip [goodScript, goodScript]).map
        (elemSigOf ⟨1, 2⟩ false false)).length = 2
    ∧ (∀ (g : List Instruction) (s : ElemScript) (gs2 : List (List Instruction))
        (ss2 : List ElemScript) (e : PipelineError) (tr : List Call),
        processElem ⟨1, 2⟩ g false false s = (ElemResult.err e, tr) →
        (send_and_confirm_batch ⟨1, 2⟩ false false ([[], []] ++ g :: gs2)
            ([goodScript, goodScript] ++ s :: ss2)).1 = BatchResult.err e) :=
  c7_batch_order_abort ⟨1, 2⟩ false false [[], []] [goodScript, goodScript] rfl
    (by
      intro p hp
      simp at hp
      subst hp
      exact ⟨7, [Call.getBalance, Call.getBlockhash,
        Call.send (Transaction.sign (Transaction.new_with_payer [] 1) 0 1)], by decide⟩)

end SendConfirm
